import Mathlib

/-!
Verification development for the scale recipe/error orchestration core.

The Lean definitions below are a shallow embedding of the code in
src/scale/error/models.py and src/scale/recipe/models.py. The relational
store is modelled as explicit lists of rows; Django primary keys are
modelled by a fresh-id counter; a Django atomic transaction is modelled by
running a state-threading body and discarding the dirty state when the body
ends in an error. Python exceptions are modelled with Except; a function
that catches every exception and returns None is modelled as returning an
Option. A handful of collaborators of the recipe module are not part of the
sources (the RecipeDefinition and RecipeData configuration classes and the
external job subsystem); their definitions below are modelled from the
specification and are marked as such in their doc comments.
-/

namespace Scale

/-! ## Error registry (src/scale/error/models.py) -/

/-- A row of the error table. Field layout follows the Error model:
name (unique, max_length 50), title (nullable, max_length 50),
description (max_length 250), category (max_length 50, choices CATEGORIES).
The id is the surrogate primary key Django assigns on save. -/
structure ErrorRow where
  id : Nat
  name : String
  title : Option String
  description : String
  category : String
  deriving DecidableEq, Repr

/-- Error.CATEGORIES from the model declaration. -/
def CATEGORIES : List String := ["SYSTEM", "ALGORITHM", "DATA"]

/-- The error table plus the id sequence. -/
structure ErrorStore where
  errors : List ErrorRow
  next_id : Nat
  deriving DecidableEq, Repr

def emptyErrorStore : ErrorStore := { errors := [], next_id := 0 }

/-- Failures that can escape ErrorManager.create_error. InvalidData is the
exception class declared in the module; integrityError and dataError are the
database errors raised by save() for a unique-constraint violation and an
over-long varchar value respectively. -/
inductive CreateErrorErr where
  | invalidData
  | integrityError
  | dataError
  deriving DecidableEq, Repr

/-- Django save() for an error row: INSERT subject to the declared schema.
The name column is unique; name, title and category are varchar(50) and
description varchar(250), which the database rejects when over-long. No
check constraint exists for the category choices: Django choices are not
enforced on save. -/
def Error_save (e : ErrorRow) (s : ErrorStore) : Except CreateErrorErr ErrorStore :=
  if s.errors.any (fun r => r.name = e.name) then
    Except.error CreateErrorErr.integrityError
  else if e.name.length > 50 ∨ (e.title.getD "").length > 50 ∨
      e.description.length > 250 ∨ e.category.length > 50 then
    Except.error CreateErrorErr.dataError
  else
    Except.ok { errors := s.errors ++ [e], next_id := s.next_id + 1 }

/-- The Error() instance create_error builds before saving: the four
assigned fields plus the primary key save() will hand out. -/
def fresh_error_row (s : ErrorStore) (name title description category : String) : ErrorRow :=
  { id := s.next_id, name := name, title := some title,
    description := description, category := category }

/-- ErrorManager.create_error. The Python body assigns the four fields inside
a try/except that re-raises as InvalidData; plain attribute assignment on a
Django model performs no validation and cannot raise, so the InvalidData
branch is unreachable and the function proceeds directly to save(). -/
def create_error (s : ErrorStore) (name title description category : String) :
    Except CreateErrorErr (ErrorRow × ErrorStore) :=
  match Error_save (fresh_error_row s name title description category) s with
  | Except.error e => Except.error e
  | Except.ok s1 => Except.ok (fresh_error_row s name title description category, s1)

/-- ErrorManager.get_by_natural_key: Error.objects.get(name=name), returning
none where the Python raises Error.DoesNotExist. The unique constraint on
name makes the row unique when present. -/
def get_by_natural_key (s : ErrorStore) (name : String) : Option ErrorRow :=
  s.errors.find? (fun e => e.name = name)

/-- ErrorManager._get_system_error. The miss branch logs and falls back to
create_error with the literal arguments from the source; the bare except
around that call logs and returns None. The function is total: no failure
escapes it, which is the never-raises-outward guarantee. -/
def get_system_error (s : ErrorStore) (name : String) : Option ErrorRow × ErrorStore :=
  match get_by_natural_key s name with
  | some e => (some e, s)
  | none =>
    match create_error s "setup" "Database Setup" "Initial database import missing." "SYSTEM" with
    | Except.ok (e, s1) => (some e, s1)
    | Except.error _ => (none, s)

/-- ErrorManager.get_database_error. -/
def get_database_error (s : ErrorStore) : Option ErrorRow × ErrorStore :=
  get_system_error s "database"

/-- ErrorManager.get_filesystem_error. -/
def get_filesystem_error (s : ErrorStore) : Option ErrorRow × ErrorStore :=
  get_system_error s "filesystem-io"

/-- ErrorManager.get_nfs_error. -/
def get_nfs_error (s : ErrorStore) : Option ErrorRow × ErrorStore :=
  get_system_error s "nfs"

/-- ErrorManager.get_unknown_error. -/
def get_unknown_error (s : ErrorStore) : Option ErrorRow × ErrorStore :=
  get_system_error s "unknown"

/-- The fallback row the healing path creates on an empty store. -/
def setupFallbackRow : ErrorRow :=
  { id := 0, name := "setup", title := some "Database Setup",
    description := "Initial database import missing.", category := "SYSTEM" }

/-! ## Recipe types, revisions, recipes (src/scale/recipe/models.py) -/

/-- Modelled from the spec: the RecipeDefinition configuration class
(recipe.configuration.definition.recipe_definition) is not among the
sources. Per the spec the definition is a DAG template: nodes is the list
of DAG nodes in declaration order, each pairing the node logical name with
the name of the job type it runs; input_names is the declared input schema
of the recipe (the field names recipe data must supply). At the modelling
level the stored JSON blob and the structured definition are identified, so
get_dict is the identity and is not given a separate definition. -/
structure RecipeDefn where
  nodes : List (String × String)
  input_names : List String
  deriving DecidableEq, Repr

/-- Modelled from the spec: RecipeDefinition.get_job_type_map, a mapping of
each DAG node logical name to its job type, in declaration order. -/
def get_job_type_map (d : RecipeDefn) : List (String × String) := d.nodes

/-- InvalidDefinition carrying the offending node name. -/
inductive InvalidDefinition where
  | unknownJobType (node : String)
  deriving DecidableEq, Repr

/-- Modelled from the spec: RecipeDefinition.validate_job_interfaces checks
that every node references a known job type (and that data edges are
interface-compatible; the claims below only exercise the resolution check,
so edges are not modelled). known lists the job type names the external job
subsystem knows. -/
def validate_job_interfaces (known : List String) (d : RecipeDefn) :
    Except InvalidDefinition Unit :=
  match d.nodes.find? (fun n => ¬ known.contains n.2) with
  | some n => Except.error (InvalidDefinition.unknownJobType n.1)
  | none => Except.ok ()

/-- Recipe data is a JSON dict; modelled as an association list of field
name to value. -/
abbrev RecipeInput := List (String × String)

/-- InvalidData naming the offending field. -/
inductive InvalidDataErr where
  | missingField (field : String)
  deriving DecidableEq, Repr

/-- Modelled from the spec: RecipeData wrapping plus
RecipeDefinition.validate_data — the recipe data must satisfy the declared
input schema of the bound revision; on mismatch the validation fails with
InvalidData naming the offending field. -/
def validate_data (d : RecipeDefn) (data : RecipeInput) : Except InvalidDataErr Unit :=
  match d.input_names.find? (fun f => ¬ (data.map Prod.fst).contains f) with
  | some f => Except.error (InvalidDataErr.missingField f)
  | none => Except.ok ()

/-- A row of the recipe_type table. -/
structure RecipeTypeRow where
  id : Nat
  name : String
  version : String
  title : Option String
  description : String
  is_active : Bool
  definition : RecipeDefn
  trigger_rule : Option Nat
  deriving DecidableEq, Repr

/-- A row of the recipe_type_revision table. -/
structure RecipeTypeRevisionRow where
  id : Nat
  recipe_type_id : Nat
  revision_num : Nat
  definition : RecipeDefn
  deriving DecidableEq, Repr

/-- A row of the recipe table. -/
structure RecipeRow where
  id : Nat
  recipe_type_id : Nat
  recipe_type_rev_id : Nat
  event_id : Nat
  data : RecipeInput
  deriving DecidableEq, Repr

/-- A row of the job table, as far as this core references it: the job
subsystem owns the rest. -/
structure JobRow where
  id : Nat
  job_type : String
  event_id : Nat
  deriving DecidableEq, Repr

/-- A row of the recipe_job table; job is the primary key (one-to-one). -/
structure RecipeJobRow where
  job_id : Nat
  job_name : String
  recipe_id : Nat
  deriving DecidableEq, Repr

/-- The relational store of the recipe core: the four owned tables, the job
table of the external job subsystem, the job type names that subsystem
knows, and the shared id sequence. -/
structure Store where
  recipe_types : List RecipeTypeRow
  revisions : List RecipeTypeRevisionRow
  recipes : List RecipeRow
  jobs : List JobRow
  recipe_jobs : List RecipeJobRow
  known_job_types : List String
  next_id : Nat
  deriving DecidableEq, Repr

/-- Every stored id is below the id sequence, and foreign keys resolve.
These are the integrity guarantees of the relational store. -/
def Store.wf (s : Store) : Prop :=
  (∀ rt ∈ s.recipe_types, rt.id < s.next_id) ∧
  (∀ rv ∈ s.revisions, rv.id < s.next_id ∧ rv.recipe_type_id < s.next_id) ∧
  (∀ r ∈ s.recipes, r.id < s.next_id) ∧
  (∀ j ∈ s.jobs, j.id < s.next_id) ∧
  (∀ rj ∈ s.recipe_jobs, ∃ r ∈ s.recipes, r.id = rj.recipe_id)

instance (s : Store) : Decidable s.wf := by
  unfold Store.wf; infer_instance

/-- The row with the greatest revision_num, none for the empty list: the
effect of order_by descending revision_num followed by first(). -/
def pick_latest : List RecipeTypeRevisionRow → Option RecipeTypeRevisionRow
  | [] => none
  | r :: rs =>
    match pick_latest rs with
    | none => some r
    | some m => if m.revision_num ≤ r.revision_num then some r else some m

/-- RecipeTypeRevisionManager.get_latest_revision: filter by recipe type,
order by descending revision_num, first(). -/
def get_latest_revision (s : Store) (recipe_type_id : Nat) : Option RecipeTypeRevisionRow :=
  pick_latest (s.revisions.filter (fun r => r.recipe_type_id = recipe_type_id))

/-- A revision row with the given primary key, owner, number and
definition snapshot. -/
def revision_row (rev_id recipe_type_id num : Nat) (d : RecipeDefn) :
    RecipeTypeRevisionRow :=
  { id := rev_id, recipe_type_id := recipe_type_id, revision_num := num, definition := d }

/-- RecipeTypeRevisionManager.create_recipe_type_revision: read the latest
revision, number the new one 1 when none exists and latest plus 1
otherwise, snapshot the definition of the recipe type, save. -/
def create_recipe_type_revision (s : Store) (recipe_type : RecipeTypeRow) : Store :=
  let new_rev_num :=
    match get_latest_revision s recipe_type.id with
    | none => 1
    | some last_rev => last_rev.revision_num + 1
  { s with
    revisions := s.revisions ++
      [revision_row s.next_id recipe_type.id new_rev_num recipe_type.definition],
    next_id := s.next_id + 1 }

/-- Failures that can escape RecipeTypeManager.create_recipe_type:
InvalidDefinition from validation, or the database unique violation on
(name, version) from save(). -/
inductive CreateRecipeTypeErr where
  | invalidDefinition (e : InvalidDefinition)
  | integrityError
  deriving DecidableEq, Repr

/-- The RecipeType() instance create_recipe_type builds and saves: the six
assigned fields, the is_active default of true, and the primary key save()
hands out. -/
def saved_recipe_type (s : Store) (name version : String) (title : Option String)
    (description : String) (definition : RecipeDefn) (trigger_rule : Option Nat) :
    RecipeTypeRow :=
  { id := s.next_id, name := name, version := version, title := title,
    description := description, is_active := true,
    definition := definition, trigger_rule := trigger_rule }

/-- The store after a recipe type row was INSERTed. -/
def store_with_recipe_type (s : Store) (rt : RecipeTypeRow) : Store :=
  { s with recipe_types := s.recipe_types ++ [rt], next_id := s.next_id + 1 }

/-- RecipeTypeManager.create_recipe_type: validate the definition, save the
recipe type row (is_active defaults to true), then create revision number
one, all in one atomic transaction — an error leaves the store untouched.
Validation and the unique check precede every write, so no rollback state
needs restoring here. -/
def create_recipe_type (s : Store) (name version : String) (title : Option String)
    (description : String) (definition : RecipeDefn) (trigger_rule : Option Nat) :
    Except CreateRecipeTypeErr RecipeTypeRow × Store :=
  match validate_job_interfaces s.known_job_types definition with
  | Except.error e => (Except.error (CreateRecipeTypeErr.invalidDefinition e), s)
  | Except.ok _ =>
    if s.recipe_types.any (fun rt => rt.name = name ∧ rt.version = version) then
      (Except.error CreateRecipeTypeErr.integrityError, s)
    else
      (Except.ok (saved_recipe_type s name version title description definition trigger_rule),
       create_recipe_type_revision
         (store_with_recipe_type s
           (saved_recipe_type s name version title description definition trigger_rule))
         (saved_recipe_type s name version title description definition trigger_rule))

/-- Failure of the external job-creation contract. -/
inductive JobCreateErr where
  | jobTypeUnknown (job_type : String)
  deriving DecidableEq, Repr

/-- The job row the external contract saves: fresh primary key, the node
job type, the triggering event. -/
def job_row_for (s : Store) (job_type : String) (event_id : Nat) : JobRow :=
  { id := s.next_id, job_type := job_type, event_id := event_id }

/-- Modelled from the spec: the external job-creation contract
createJob(jobType, event) consumed by recipe creation
(Job.objects.create_job followed by job.save() in the source; the job app
is not among the sources). It runs inside the enclosing transaction,
produces a saved Job row, and its failure aborts recipe creation; it is
modelled to fail when the job type is unknown to the job subsystem. -/
def create_job (s : Store) (job_type : String) (event_id : Nat) :
    Except JobCreateErr (JobRow × Store) :=
  if s.known_job_types.contains job_type then
    Except.ok (job_row_for s job_type event_id,
      { s with
        jobs := s.jobs ++ [job_row_for s job_type event_id],
        next_id := s.next_id + 1 })
  else
    Except.error (JobCreateErr.jobTypeUnknown job_type)

/-- RecipeManager._create_recipe_jobs: walk the job type map and create one
job per node, keeping the name-to-job association. An error surfaces the
store as already mutated by the jobs created before the failure; the
enclosing transaction discards it. -/
def create_recipe_jobs (s : Store) (nodes : List (String × String)) (event_id : Nat) :
    Except JobCreateErr (List (String × JobRow)) × Store :=
  match nodes with
  | [] => (Except.ok [], s)
  | (job_name, job_type) :: rest =>
    match create_job s job_type event_id with
    | Except.error e => (Except.error e, s)
    | Except.ok (job, s1) =>
      match create_recipe_jobs s1 rest event_id with
      | (Except.error e, s2) => (Except.error e, s2)
      | (Except.ok tail, s2) => (Except.ok ((job_name, job) :: tail), s2)

/-- A recipe_job row linking a job to its recipe under a node name. -/
def recipe_job_row (job_id : Nat) (job_name : String) (recipe_id : Nat) : RecipeJobRow :=
  { job_id := job_id, job_name := job_name, recipe_id := recipe_id }

/-- The recipe_job saving loop at the end of create_recipe: one RecipeJob
row per created job, linking it to the recipe under the node name. -/
def save_recipe_jobs (s : Store) (recipe_id : Nat) :
    List (String × JobRow) → Store
  | [] => s
  | (job_name, job) :: rest =>
    save_recipe_jobs
      { s with recipe_jobs := s.recipe_jobs ++ [recipe_job_row job.id job_name recipe_id] }
      recipe_id rest

/-- Failures that can escape RecipeManager.create_recipe. The first two are
the precondition Exceptions raised before any work; noneTypeAttributeError
is the unclassified AttributeError raised by get_recipe_definition when
get_latest_revision returned None and the recipe holds no revision;
invalidData comes from data validation; jobCreationFailed from the external
contract. -/
inductive CreateRecipeErr where
  | inactiveRecipeType
  | eventRequired
  | noneTypeAttributeError
  | invalidData (e : InvalidDataErr)
  | jobCreationFailed (e : JobCreateErr)
  deriving DecidableEq, Repr

/-- Whether a create_recipe failure belongs to the error taxonomy of the
spec (InvalidDefinition, InvalidData, Conflict, PreconditionFailed,
NotFound). The two precondition Exceptions and InvalidData do; the
AttributeError on a missing revision and an external job failure do not. -/
def CreateRecipeErr.inSpecTaxonomy : CreateRecipeErr → Bool
  | CreateRecipeErr.inactiveRecipeType => true
  | CreateRecipeErr.eventRequired => true
  | CreateRecipeErr.noneTypeAttributeError => false
  | CreateRecipeErr.invalidData _ => true
  | CreateRecipeErr.jobCreationFailed _ => false

/-- Whether a create_recipe failure is one of the two fatal precondition
failures checked before any work. -/
def CreateRecipeErr.isPrecondition : CreateRecipeErr → Bool
  | CreateRecipeErr.inactiveRecipeType => true
  | CreateRecipeErr.eventRequired => true
  | _ => false

/-- The Recipe() instance create_recipe builds and saves: the bound type,
revision, event and data, plus the primary key save() hands out. -/
def recipe_row_for (s : Store) (recipe_type : RecipeTypeRow) (rev : RecipeTypeRevisionRow)
    (event_id : Nat) (data : RecipeInput) : RecipeRow :=
  { id := s.next_id, recipe_type_id := recipe_type.id,
    recipe_type_rev_id := rev.id, event_id := event_id, data := data }

/-- The store after a recipe row was INSERTed. -/
def store_with_recipe (s : Store) (r : RecipeRow) : Store :=
  { s with recipes := s.recipes ++ [r], next_id := s.next_id + 1 }

/-- The body of RecipeManager.create_recipe, threading the store through
every write: check the two preconditions, bind the latest revision, read
the bound definition (raising when the revision is None), validate the
data, save the recipe row, create the jobs, save the recipe_job rows. On an
error the returned store reflects the writes already performed — the dirty
transaction state the atomic wrapper throws away. -/
def create_recipe_inner (s : Store) (recipe_type : RecipeTypeRow) (event : Option Nat)
    (data : RecipeInput) : Except CreateRecipeErr RecipeRow × Store :=
  if recipe_type.is_active = false then
    (Except.error CreateRecipeErr.inactiveRecipeType, s)
  else
    match event with
    | none => (Except.error CreateRecipeErr.eventRequired, s)
    | some event_id =>
      match get_latest_revision s recipe_type.id with
      | none =>
        -- recipe.recipe_type_rev is None; reading .definition raises AttributeError
        (Except.error CreateRecipeErr.noneTypeAttributeError, s)
      | some rev =>
        match validate_data rev.definition data with
        | Except.error e => (Except.error (CreateRecipeErr.invalidData e), s)
        | Except.ok _ =>
          match create_recipe_jobs
              (store_with_recipe s (recipe_row_for s recipe_type rev event_id data))
              (get_job_type_map rev.definition) event_id with
          | (Except.error e, s2) => (Except.error (CreateRecipeErr.jobCreationFailed e), s2)
          | (Except.ok jobs_by_name, s2) =>
            (Except.ok (recipe_row_for s recipe_type rev event_id data),
             save_recipe_jobs s2 (recipe_row_for s recipe_type rev event_id data).id
               jobs_by_name)

/-- RecipeManager.create_recipe: the body above inside transaction.atomic —
when the body ends in an error, every write of the transaction is rolled
back and the store is as before the call. -/
def create_recipe (s : Store) (recipe_type : RecipeTypeRow) (event : Option Nat)
    (data : RecipeInput) : Except CreateRecipeErr RecipeRow × Store :=
  match create_recipe_inner s recipe_type event data with
  | (Except.ok r, s1) => (Except.ok r, s1)
  | (Except.error e, _) => (Except.error e, s)

/-- A recipe fetched with its recipe_type and recipe_type_rev relations
populated (select_related). -/
structure LockedRecipe where
  recipe : RecipeRow
  recipe_type : RecipeTypeRow
  recipe_type_rev : RecipeTypeRevisionRow
  deriving DecidableEq, Repr

/-- The DoesNotExist failures get_locked_recipe_for_job does not catch: it
only catches RecipeJob.DoesNotExist, so a dangling foreign key would
surface (foreign-key integrity rules that out). -/
inductive FetchErr where
  | recipeDoesNotExist
  | recipeTypeDoesNotExist
  | recipeTypeRevDoesNotExist
  deriving DecidableEq, Repr

/-- RecipeManager.get_locked_recipe_for_job: resolve the RecipeJob owning
the job id (none is the caught not-in-a-recipe case), then fetch the recipe
under select_for_update with recipe_type and recipe_type_rev populated. -/
def get_locked_recipe_for_job (s : Store) (job_id : Nat) :
    Except FetchErr (Option LockedRecipe) :=
  match s.recipe_jobs.find? (fun rj => rj.job_id = job_id) with
  | none => Except.ok none
  | some recipe_job =>
    match s.recipes.find? (fun r => r.id = recipe_job.recipe_id) with
    | none => Except.error FetchErr.recipeDoesNotExist
    | some recipe =>
      match s.recipe_types.find? (fun t => t.id = recipe.recipe_type_id) with
      | none => Except.error FetchErr.recipeTypeDoesNotExist
      | some recipe_type =>
        match s.revisions.find? (fun v => v.id = recipe.recipe_type_rev_id) with
        | none => Except.error FetchErr.recipeTypeRevDoesNotExist
        | some rev => Except.ok (some ⟨recipe, recipe_type, rev⟩)

/-- The KeyError a dangling recipe_job.job_id would raise in the
re-population loop of get_recipe_jobs. -/
inductive KeyErr where
  | keyError
  deriving DecidableEq, Repr

/-- RecipeJobManager.get_recipe_jobs: all recipe_job rows of the recipe,
each with its job row populated. The jobs_related and jobs_lock flags only
change which related metadata is prefetched and whether each job row is
locked; the row values returned are the same, so the flags do not appear in
the value-level result (their locking effect is captured by
get_recipe_jobs_lock_seq below). -/
def get_recipe_jobs (s : Store) (recipe_id : Nat) :
    Except KeyErr (List (RecipeJobRow × JobRow)) :=
  (s.recipe_jobs.filter (fun rj => rj.recipe_id = recipe_id)).mapM (fun rj =>
    match s.jobs.find? (fun j => j.id = rj.job_id) with
    | some j => Except.ok (rj, j)
    | none => Except.error KeyErr.keyError)

/-! ## Lock-ordering protocol (module comment, src/scale/recipe/models.py lines 13-14)

The mandated system-wide acquisition order for select_for_update() locks is
JobExecution, Recipe, Job, RecipeType, JobType, TriggerRule. Each operation
of the orchestration core is assigned the sequence of entity types it
acquires exclusive locks on, in acquisition order, read off the
select_for_update() calls in its body. -/

/-- The entity types of the mandated lock order. -/
inductive LockEntity where
  | jobExecution
  | recipe
  | job
  | recipeType
  | jobType
  | triggerRule
  deriving DecidableEq, Repr

/-- Position of an entity type in the mandated acquisition order. -/
def lockOrderIndex : LockEntity → Nat
  | LockEntity.jobExecution => 0
  | LockEntity.recipe => 1
  | LockEntity.job => 2
  | LockEntity.recipeType => 3
  | LockEntity.jobType => 4
  | LockEntity.triggerRule => 5

/-- A lock acquisition sequence respects the protocol when the entity types
appear in strictly increasing mandated order. -/
def respects_lock_order (l : List LockEntity) : Prop :=
  l.Chain' (fun a b => lockOrderIndex a < lockOrderIndex b)

/-- create_recipe performs only INSERTs; no select_for_update() call. -/
def create_recipe_lock_seq : List LockEntity := []

/-- get_locked_recipe_for_job acquires the select_for_update() lock on the
recipe row (line 104). -/
def get_locked_recipe_for_job_lock_seq : List LockEntity := [LockEntity.recipe]

/-- get_recipe_jobs acquires select_for_update() locks on the related job
rows when jobs_lock is set (line 269), and none otherwise. -/
def get_recipe_jobs_lock_seq (jobs_lock : Bool) : List LockEntity :=
  if jobs_lock then [LockEntity.job] else []

/-- create_recipe_type performs only INSERTs; no select_for_update(). -/
def create_recipe_type_lock_seq : List LockEntity := []

/-- create_recipe_type_revision itself issues no select_for_update(); its
docstring requires the caller to already hold the RecipeType lock. -/
def create_recipe_type_revision_lock_seq : List LockEntity := []

/-- create_error performs only an INSERT; no select_for_update(). -/
def create_error_lock_seq : List LockEntity := []

/-- _get_system_error reads and at worst INSERTs; no select_for_update(). -/
def get_system_error_lock_seq : List LockEntity := []

/-- The lock sequences of every operation of the embedded orchestration
core, one entry per operation (both settings of the jobs_lock flag). -/
def core_lock_seqs : List (List LockEntity) :=
  [create_recipe_lock_seq,
   get_locked_recipe_for_job_lock_seq,
   get_recipe_jobs_lock_seq true,
   get_recipe_jobs_lock_seq false,
   create_recipe_type_lock_seq,
   create_recipe_type_revision_lock_seq,
   create_error_lock_seq,
   get_system_error_lock_seq]

/-! ## Concrete fixtures used by the witnesses -/

/-- A two-node DAG A then B, in declaration order, with no declared recipe
inputs. -/
def demoDefnAB : RecipeDefn :=
  { nodes := [("A", "jtA"), ("B", "jtB")], input_names := [] }

/-- An active recipe type over the two-node DAG. -/
def demoRt : RecipeTypeRow :=
  { id := 0, name := "two-node", version := "1.0", title := none, description := "",
    is_active := true, definition := demoDefnAB, trigger_rule := none }

/-- Revision 1 of the demo recipe type. -/
def demoRev : RecipeTypeRevisionRow :=
  { id := 1, recipe_type_id := 0, revision_num := 1, definition := demoDefnAB }

/-- A store holding the demo recipe type with its first revision, and a job
subsystem knowing the two referenced job types. -/
def demoStore : Store :=
  { recipe_types := [demoRt], revisions := [demoRev], recipes := [], jobs := [],
    recipe_jobs := [], known_job_types := ["jtA", "jtB"], next_id := 2 }

/-- The archived twin of the demo recipe type. -/
def demoRtInactive : RecipeTypeRow :=
  { demoRt with is_active := false }

/-- An active recipe type that has no revision rows in demoStoreNoRev. -/
def demoRtNoRev : RecipeTypeRow :=
  { demoRt with id := 5 }

/-- A store holding demoRtNoRev and no revision for it. -/
def demoStoreNoRev : Store :=
  { recipe_types := [demoRtNoRev], revisions := [], recipes := [], jobs := [],
    recipe_jobs := [], known_job_types := ["jtA", "jtB"], next_id := 6 }

/-- The recipe row create_recipe produces on demoStore with event 7. -/
def demoRcp : RecipeRow :=
  { id := 2, recipe_type_id := 0, recipe_type_rev_id := 1, event_id := 7, data := [] }

/-- The job created for node A of the demo run. -/
def demoJobA : JobRow := { id := 3, job_type := "jtA", event_id := 7 }

/-- The job created for node B of the demo run. -/
def demoJobB : JobRow := { id := 4, job_type := "jtB", event_id := 7 }

/-- The store after the successful demo create_recipe run. -/
def demoStoreAfter : Store :=
  { recipe_types := [demoRt], revisions := [demoRev], recipes := [demoRcp],
    jobs := [demoJobA, demoJobB],
    recipe_jobs := [{ job_id := 3, job_name := "A", recipe_id := 2 },
                    { job_id := 4, job_name := "B", recipe_id := 2 }],
    known_job_types := ["jtA", "jtB"], next_id := 5 }

/-- The recipe type created by the demo create_recipe_type run. -/
def c3Rt : RecipeTypeRow :=
  { id := 6, name := "n", version := "1", title := none, description := "",
    is_active := true, definition := demoDefnAB, trigger_rule := none }

/-- Revision 1 created alongside c3Rt. -/
def c3Rev : RecipeTypeRevisionRow :=
  { id := 7, recipe_type_id := 6, revision_num := 1, definition := demoDefnAB }

/-- The store after the demo create_recipe_type run on demoStoreNoRev. -/
def c3Store : Store :=
  { recipe_types := [demoRtNoRev, c3Rt], revisions := [c3Rev], recipes := [], jobs := [],
    recipe_jobs := [], known_job_types := ["jtA", "jtB"], next_id := 8 }

/-- The error store after the healing path ran once on an empty store. -/
def setupStore : ErrorStore := { errors := [setupFallbackRow], next_id := 1 }

/-- The setup fallback row as created against a given store. -/
def setupRowOf (s : ErrorStore) : ErrorRow :=
  fresh_error_row s "setup" "Database Setup" "Initial database import missing." "SYSTEM"

/-- The store after the setup fallback row was appended to a given store. -/
def setupStoreOf (s : ErrorStore) : ErrorStore :=
  { errors := s.errors ++ [setupRowOf s], next_id := s.next_id + 1 }

/-- The row create_error persists when handed the out-of-set category. -/
def c7BogusRow : ErrorRow :=
  { id := 0, name := "x", title := some "t", description := "d", category := "BOGUS" }

/-- Whether a create_error run ends in the InvalidData exception the module
declares for schema violations. -/
def create_error_returns_invalid_data (s : ErrorStore)
    (name title description category : String) : Bool :=
  match create_error s name title description category with
  | Except.error CreateErrorErr.invalidData => true
  | _ => false

/-! ## Helper lemmas -/

theorem get_by_natural_key_eq_none_iff (s : ErrorStore) (name : String) :
    get_by_natural_key s name = none ↔ ∀ e ∈ s.errors, e.name ≠ name := by
  unfold get_by_natural_key
  simp [List.find?_eq_none]

theorem errors_any_name_eq_false (s : ErrorStore) (name : String)
    (h : ∀ e ∈ s.errors, e.name ≠ name) :
    s.errors.any (fun r => r.name = name) = false := by
  simp only [List.any_eq_false, decide_eq_true_eq]
  exact h

theorem create_error_eq_ok (s : ErrorStore) (name title description category : String)
    (hno : s.errors.any (fun r => r.name = name) = false)
    (hname : name.length ≤ 50) (htitle : title.length ≤ 50)
    (hdescr : description.length ≤ 250) (hcat : category.length ≤ 50) :
    create_error s name title description category =
      Except.ok (fresh_error_row s name title description category,
        { errors := s.errors ++ [fresh_error_row s name title description category],
          next_id := s.next_id + 1 }) := by
  unfold create_error Error_save
  simp only [fresh_error_row, Option.getD_some]
  rw [hno]
  simp only [Bool.false_eq_true, if_false]
  rw [if_neg]
  push_neg
  exact ⟨hname, htitle, hdescr, hcat⟩

theorem create_error_eq_conflict (s : ErrorStore) (name title description category : String)
    (hdup : s.errors.any (fun r => r.name = name) = true) :
    create_error s name title description category =
      (Except.error CreateErrorErr.integrityError :
        Except CreateErrorErr (ErrorRow × ErrorStore)) := by
  unfold create_error Error_save
  simp only [fresh_error_row]
  rw [hdup]
  simp

theorem create_error_error_spec (s : ErrorStore) (name title description category : String)
    (err : CreateErrorErr)
    (h : create_error s name title description category = Except.error err) :
    err = CreateErrorErr.integrityError ∨ err = CreateErrorErr.dataError := by
  unfold create_error Error_save at h
  split at h
  · rename_i e heq
    simp only [Except.error.injEq] at h
    subst h
    split at heq
    · simp only [Except.error.injEq] at heq
      exact Or.inl heq.symm
    · split at heq
      · simp only [Except.error.injEq] at heq
        exact Or.inr heq.symm
      · cases heq
  · cases h

theorem create_error_ok_spec (s : ErrorStore) (name title description category : String)
    (e : ErrorRow) (s1 : ErrorStore)
    (h : create_error s name title description category = Except.ok (e, s1)) :
    e.name = name ∧ e.category = category ∧ s1.errors = s.errors ++ [e] ∧
    ∀ r ∈ s.errors, r.name ≠ name := by
  unfold create_error Error_save at h
  split at h
  · cases h
  · rename_i s2 heq
    simp only [Except.ok.injEq, Prod.mk.injEq] at h
    obtain ⟨he, hs⟩ := h
    split at heq
    · cases heq
    · split at heq
      · cases heq
      · rename_i hno _
        simp only [Except.ok.injEq] at heq
        subst hs
        subst heq
        rw [← he]
        refine ⟨rfl, rfl, rfl, ?_⟩
        simp only [fresh_error_row] at hno
        simpa [List.any_eq_false] using hno

theorem pick_latest_ne_none (a : RecipeTypeRevisionRow) (as : List RecipeTypeRevisionRow) :
    pick_latest (a :: as) ≠ none := by
  unfold pick_latest
  split
  · exact Option.some_ne_none a
  · split
    · exact Option.some_ne_none _
    · exact Option.some_ne_none _

theorem pick_latest_eq_none_iff (l : List RecipeTypeRevisionRow) :
    pick_latest l = none ↔ l = [] := by
  cases l with
  | nil => simp [pick_latest]
  | cons a as =>
    constructor
    · intro h
      exact absurd h (pick_latest_ne_none a as)
    · intro h
      cases h

theorem pick_latest_mem (l : List RecipeTypeRevisionRow) :
    ∀ r, pick_latest l = some r → r ∈ l := by
  induction l with
  | nil => intro r h; cases h
  | cons a as ih =>
    intro r h
    unfold pick_latest at h
    split at h
    · simp only [Option.some.injEq] at h
      subst h
      exact List.mem_cons_self a as
    · rename_i m hp
      split at h
      · simp only [Option.some.injEq] at h
        subst h
        exact List.mem_cons_self a as
      · simp only [Option.some.injEq] at h
        subst h
        exact List.mem_cons_of_mem a (ih m hp)

theorem pick_latest_is_max (l : List RecipeTypeRevisionRow) :
    ∀ r, pick_latest l = some r → ∀ x ∈ l, x.revision_num ≤ r.revision_num := by
  induction l with
  | nil => intro r h; cases h
  | cons a as ih =>
    intro r h x hx
    unfold pick_latest at h
    split at h
    · rename_i hp
      simp only [Option.some.injEq] at h
      subst h
      rcases List.mem_cons.mp hx with hxa | hxs
      · subst hxa
        exact le_refl _
      · rw [(pick_latest_eq_none_iff as).mp hp] at hxs
        cases hxs
    · rename_i m hp
      split at h
      · rename_i hle
        simp only [Option.some.injEq] at h
        subst h
        rcases List.mem_cons.mp hx with hxa | hxs
        · subst hxa
          exact le_refl _
        · exact le_trans (ih m hp x hxs) hle
      · rename_i hle
        simp only [Option.some.injEq] at h
        subst h
        rcases List.mem_cons.mp hx with hxa | hxs
        · subst hxa
          exact Nat.le_of_lt (Nat.lt_of_not_le hle)
        · exact ih m hp x hxs

theorem get_latest_revision_eq_none_iff (s : Store) (tid : Nat) :
    get_latest_revision s tid = none ↔ ∀ r ∈ s.revisions, r.recipe_type_id ≠ tid := by
  unfold get_latest_revision
  rw [pick_latest_eq_none_iff]
  constructor
  · intro h r hr htid
    have : r ∈ s.revisions.filter (fun x => x.recipe_type_id = tid) :=
      List.mem_filter.mpr ⟨hr, by simp [htid]⟩
    rw [h] at this
    cases this
  · intro h
    rw [List.filter_eq_nil_iff]
    intro r hr
    simp only [decide_eq_true_eq]
    exact h r hr

theorem get_latest_revision_spec (s : Store) (tid : Nat) (r : RecipeTypeRevisionRow)
    (h : get_latest_revision s tid = some r) :
    r ∈ s.revisions ∧ r.recipe_type_id = tid ∧
      ∀ x ∈ s.revisions, x.recipe_type_id = tid → x.revision_num ≤ r.revision_num := by
  unfold get_latest_revision at h
  have hmem := pick_latest_mem _ r h
  rw [List.mem_filter] at hmem
  refine ⟨hmem.1, by simpa using hmem.2, ?_⟩
  intro x hx htid
  exact pick_latest_is_max _ r h x (List.mem_filter.mpr ⟨hx, by simp [htid]⟩)

/-! ## Claim theorems -/

/-- C2: the system-error lookup (_get_system_error, reached via
get_database_error / get_filesystem_error / get_nfs_error /
get_unknown_error) never raises outward — it is a total function into an
optional row. If an Error row with the requested name exists it is
returned; if absent, a fallback error named setup with category SYSTEM is
created and returned; if creating that fallback itself fails, no error is
returned and the store is left as it was. -/
theorem c2_system_error_self_heals (s : ErrorStore) (name : String) :
    get_database_error s = get_system_error s "database" ∧
    get_filesystem_error s = get_system_error s "filesystem-io" ∧
    get_nfs_error s = get_system_error s "nfs" ∧
    get_unknown_error s = get_system_error s "unknown" ∧
    (∀ e, get_by_natural_key s name = some e → get_system_error s name = (some e, s)) ∧
    (get_by_natural_key s name = none →
      (∀ e, (get_system_error s name).1 = some e →
        e.name = "setup" ∧ e.category = "SYSTEM" ∧
        e ∈ (get_system_error s name).2.errors ∧ e ∉ s.errors) ∧
      ((get_system_error s name).1 = none → (get_system_error s name).2 = s)) := by
  refine ⟨rfl, rfl, rfl, rfl, ?_, ?_⟩
  · intro e he
    unfold get_system_error
    rw [he]
  · intro hnone
    unfold get_system_error
    rw [hnone]
    cases hc : create_error s "setup" "Database Setup" "Initial database import missing."
        "SYSTEM" with
    | ok pr =>
      obtain ⟨e0, s1⟩ := pr
      obtain ⟨hn, hcat, herrs, hfresh⟩ := create_error_ok_spec _ _ _ _ _ _ _ hc
      constructor
      · intro e he
        simp only [Option.some.injEq] at he
        subst he
        refine ⟨hn, hcat, ?_, ?_⟩
        · rw [herrs]
          exact List.mem_append_right _ (List.mem_singleton.mpr rfl)
        · intro hmem
          exact hfresh e0 hmem hn
      · intro hcontra
        cases hcontra
    | error err =>
      constructor
      · intro e he
        cases he
      · intro _
        rfl

/-- C2 witness: on the empty store the database lookup misses and the
healing path creates the setup fallback. -/
theorem c2_system_error_self_heals_witness :
    setupFallbackRow.name = "setup" ∧ setupFallbackRow.category = "SYSTEM" ∧
    setupFallbackRow ∈ (get_system_error emptyErrorStore "database").2.errors ∧
    setupFallbackRow ∉ emptyErrorStore.errors := by
  have h := ((c2_system_error_self_heals emptyErrorStore "database").2.2.2.2.2
    (by decide)).1 setupFallbackRow (by decide)
  exact ⟨h.1, h.2.1, h.2.2.1, h.2.2.2⟩

/-- C5 counterexample: starting from a store with no error named database,
the first database lookup creates and returns the setup fallback, but the
second lookup does not return that row (nor any row): it returns none,
against the claim that it returns the same row by id. -/
theorem c5_counterexample_second_call_returns_none :
    (get_database_error emptyErrorStore).1 = some setupFallbackRow ∧
    (get_database_error (get_database_error emptyErrorStore).2).1 = none := by
  decide

/-- C5 amended: when no error named database and no error named setup
exist, the first database lookup creates and returns a fallback named
setup; the second lookup still misses on the name database, its fallback
creation collides with the unique name of the existing setup row, and it
returns no row at all, leaving the store unchanged — in particular no
second fallback row is created. -/
theorem c5_fallback_then_conflict (s : ErrorStore)
    (hdb : get_by_natural_key s "database" = none)
    (hsetup : get_by_natural_key s "setup" = none) :
    ∃ e s1, get_database_error s = (some e, s1) ∧ e.name = "setup" ∧
      e ∈ s1.errors ∧ s1.errors = s.errors ++ [e] ∧
      get_database_error s1 = (none, s1) := by
  have hnosetup : ∀ r ∈ s.errors, r.name ≠ "setup" :=
    (get_by_natural_key_eq_none_iff s "setup").mp hsetup
  have hany : s.errors.any (fun r => r.name = "setup") = false :=
    errors_any_name_eq_false s "setup" hnosetup
  have hok : create_error s "setup" "Database Setup" "Initial database import missing."
      "SYSTEM" = Except.ok (setupRowOf s, setupStoreOf s) :=
    create_error_eq_ok s "setup" "Database Setup"
      "Initial database import missing." "SYSTEM" hany (by decide) (by decide) (by decide)
      (by decide)
  have hname : (setupRowOf s).name = "setup" := rfl
  have hmem : setupRowOf s ∈ (setupStoreOf s).errors :=
    List.mem_append_right _ (List.mem_singleton.mpr rfl)
  refine ⟨setupRowOf s, setupStoreOf s, ?_, hname, hmem, rfl, ?_⟩
  · unfold get_database_error get_system_error
    rw [hdb, hok]
  · have hdb1 : get_by_natural_key (setupStoreOf s) "database" = none := by
      rw [get_by_natural_key_eq_none_iff]
      intro e he
      rcases List.mem_append.mp he with hm | hm
      · exact (get_by_natural_key_eq_none_iff s "database").mp hdb e hm
      · rw [List.mem_singleton.mp hm]
        simp [setupRowOf, fresh_error_row]
    have hdup : (setupStoreOf s).errors.any (fun r => r.name = "setup") = true := by
      rw [List.any_eq_true]
      exact ⟨setupRowOf s, hmem, by simp [setupRowOf, fresh_error_row]⟩
    unfold get_database_error get_system_error
    rw [hdb1]
    rw [create_error_eq_conflict _ _ _ _ _ hdup]

/-- C5 witness for the amended claim, at the empty store. -/
theorem c5_fallback_then_conflict_witness :
    get_database_error emptyErrorStore = (some setupFallbackRow, setupStore) ∧
    get_database_error setupStore = (none, setupStore) := by
  obtain ⟨e, s1, h1, -, -, -, h4⟩ :=
    c5_fallback_then_conflict emptyErrorStore (by decide) (by decide)
  have hd : get_database_error emptyErrorStore = (some setupFallbackRow, setupStore) := by
    decide
  have hpair := h1.symm.trans hd
  rw [Prod.mk.injEq] at hpair
  obtain ⟨-, hs⟩ := hpair
  subst hs
  exact ⟨hd, h4⟩

/-- C7 code-bug exhibit: create_error accepts a category outside the
enumerated set CATEGORIES, persists the row and returns it instead of
failing with a validation error, and no run of create_error can end in the
InvalidData exception the module reserves for schema violations — the
try/except that would raise it wraps plain attribute assignments, which
cannot fail. -/
theorem c7_unknown_category_persists :
    CATEGORIES.contains "BOGUS" = false ∧
    create_error emptyErrorStore "x" "t" "d" "BOGUS" =
      Except.ok (c7BogusRow, { errors := [c7BogusRow], next_id := 1 }) ∧
    c7BogusRow.category = "BOGUS" ∧
    (∀ s name title description category,
      create_error_returns_invalid_data s name title description category = false) := by
  refine ⟨by decide, by rfl, by decide, ?_⟩
  intro s name title description category
  unfold create_error_returns_invalid_data
  cases hc : create_error s name title description category with
  | ok pr => rfl
  | error err =>
    rcases create_error_error_spec _ _ _ _ _ _ hc with h | h <;> subst h <;> rfl

theorem create_recipe_type_revision_of_none (s : Store) (rt : RecipeTypeRow)
    (h : get_latest_revision s rt.id = none) :
    create_recipe_type_revision s rt =
      { s with
        revisions := s.revisions ++ [revision_row s.next_id rt.id 1 rt.definition],
        next_id := s.next_id + 1 } := by
  unfold create_recipe_type_revision
  rw [h]

theorem create_recipe_type_revision_of_some (s : Store) (rt : RecipeTypeRow)
    (last : RecipeTypeRevisionRow) (h : get_latest_revision s rt.id = some last) :
    create_recipe_type_revision s rt =
      { s with
        revisions := s.revisions ++
          [revision_row s.next_id rt.id (last.revision_num + 1) rt.definition],
        next_id := s.next_id + 1 } := by
  unfold create_recipe_type_revision
  rw [h]

/-- C4: revision numbers per recipe type strictly increase by 1 from 1:
create_recipe_type_revision appends a revision numbered 1 when no revision
exists and latest plus 1 otherwise; two sequential calls starting from a
state with no revision for the type leave exactly the revision numbers 1
then 2 for it, with no gap and no duplicate; and get_latest_revision
returns the revision with the highest revision_num for the type, or none
when the type has no revision. -/
theorem c4_revision_numbering (s : Store) (rt : RecipeTypeRow) :
    (get_latest_revision s rt.id = none →
      (create_recipe_type_revision s rt).revisions = s.revisions ++
        [revision_row s.next_id rt.id 1 rt.definition]) ∧
    (∀ last, get_latest_revision s rt.id = some last →
      (create_recipe_type_revision s rt).revisions = s.revisions ++
        [revision_row s.next_id rt.id (last.revision_num + 1) rt.definition]) ∧
    (get_latest_revision s rt.id = none →
      ((create_recipe_type_revision (create_recipe_type_revision s rt) rt).revisions.filter
          (fun r => r.recipe_type_id = rt.id)).map (fun r => r.revision_num) = [1, 2]) ∧
    (get_latest_revision s rt.id = none ↔ ∀ r ∈ s.revisions, r.recipe_type_id ≠ rt.id) ∧
    (∀ r, get_latest_revision s rt.id = some r → r ∈ s.revisions ∧ r.recipe_type_id = rt.id ∧
      ∀ x ∈ s.revisions, x.recipe_type_id = rt.id → x.revision_num ≤ r.revision_num) := by
  refine ⟨?_, ?_, ?_, get_latest_revision_eq_none_iff s rt.id,
    fun r h => get_latest_revision_spec s rt.id r h⟩
  · intro h
    rw [create_recipe_type_revision_of_none s rt h]
  · intro last h
    rw [create_recipe_type_revision_of_some s rt last h]
  · intro h
    have hfil : s.revisions.filter (fun r => r.recipe_type_id = rt.id) = [] := by
      rw [List.filter_eq_nil_iff]
      intro r hr
      simp only [decide_eq_true_eq]
      exact (get_latest_revision_eq_none_iff s rt.id).mp h r hr
    rw [create_recipe_type_revision_of_none s rt h]
    have h2 : get_latest_revision
        ({ s with
           revisions := s.revisions ++ [revision_row s.next_id rt.id 1 rt.definition],
           next_id := s.next_id + 1 } : Store) rt.id =
        some (revision_row s.next_id rt.id 1 rt.definition) := by
      unfold get_latest_revision
      simp only [List.filter_append, hfil, List.nil_append]
      simp [pick_latest, revision_row]
    rw [create_recipe_type_revision_of_some _ rt _ h2]
    simp [List.filter_append, hfil, pick_latest, revision_row]

/-- C4 witness: two sequential revision creations on a type with no
revisions yield exactly the revision numbers 1 then 2. -/
theorem c4_revision_numbering_witness :
    ((create_recipe_type_revision (create_recipe_type_revision demoStoreNoRev demoRtNoRev)
        demoRtNoRev).revisions.filter
        (fun r => r.recipe_type_id = demoRtNoRev.id)).map (fun r => r.revision_num) = [1, 2] :=
  (c4_revision_numbering demoStoreNoRev demoRtNoRev).2.2.1 (by decide)

/-- C3: create_recipe_type validates the job interfaces of the definition
before persisting anything — an InvalidDefinition failure (or any failure)
leaves the store exactly as it was; on success exactly one RecipeType row
and one RecipeTypeRevision row with revision_num 1 are appended in one
atomic unit, no other table changes, and fetching the latest revision of
the new type immediately afterward yields that revision, numbered 1, whose
definition snapshot equals the stored recipe type definition. -/
theorem c3_create_recipe_type_atomic (s : Store) (name version : String)
    (title : Option String) (description : String) (defn : RecipeDefn)
    (trigger_rule : Option Nat) (hwf : s.wf) :
    (∀ e, validate_job_interfaces s.known_job_types defn = Except.error e →
      create_recipe_type s name version title description defn trigger_rule =
        (Except.error (CreateRecipeTypeErr.invalidDefinition e), s)) ∧
    (∀ e, (create_recipe_type s name version title description defn trigger_rule).1 =
        Except.error e →
      (create_recipe_type s name version title description defn trigger_rule).2 = s) ∧
    (∀ rt s1, create_recipe_type s name version title description defn trigger_rule =
        (Except.ok rt, s1) →
      rt.definition = defn ∧
      s1.recipe_types = s.recipe_types ++ [rt] ∧
      s1.recipes = s.recipes ∧ s1.jobs = s.jobs ∧ s1.recipe_jobs = s.recipe_jobs ∧
      ∃ rev, s1.revisions = s.revisions ++ [rev] ∧
        rev.recipe_type_id = rt.id ∧ rev.revision_num = 1 ∧
        rev.definition = rt.definition ∧
        get_latest_revision s1 rt.id = some rev) := by
  have hnorev : ∀ rv ∈ s.revisions, rv.recipe_type_id ≠ s.next_id := by
    intro rv hrv
    exact Nat.ne_of_lt (hwf.2.1 rv hrv).2
  refine ⟨?_, ?_, ?_⟩
  · intro e he
    unfold create_recipe_type
    rw [he]
  · intro e he
    unfold create_recipe_type at he ⊢
    split
    · rfl
    · rename_i a hval
      rw [hval] at he
      split
      · rfl
      · rename_i hdup
        rw [if_neg hdup] at he
        simp at he
  · intro rt s1 hok
    unfold create_recipe_type at hok
    split at hok
    · cases hok
    · split at hok
      · cases hok
      · rename_i hval hdup
        simp only [Prod.mk.injEq, Except.ok.injEq] at hok
        obtain ⟨hrt, hs1⟩ := hok
        subst hrt
        subst hs1
        have hlatest0 : get_latest_revision
            (store_with_recipe_type s
              (saved_recipe_type s name version title description defn trigger_rule))
            (saved_recipe_type s name version title description defn trigger_rule).id =
            none := by
          rw [get_latest_revision_eq_none_iff]
          exact hnorev
        rw [create_recipe_type_revision_of_none _ _ hlatest0]
        refine ⟨rfl, rfl, rfl, rfl, rfl, ?_⟩
        refine ⟨revision_row (s.next_id + 1) s.next_id 1 defn, rfl, rfl, rfl, rfl, ?_⟩
        have hfil : s.revisions.filter (fun r => r.recipe_type_id = s.next_id) = [] := by
          rw [List.filter_eq_nil_iff]
          intro r hr
          simp only [decide_eq_true_eq]
          exact hnorev r hr
        unfold get_latest_revision
        simp only [store_with_recipe_type, saved_recipe_type, List.filter_append, hfil,
          List.nil_append]
        simp [pick_latest, revision_row]

/-- C3 witness: creating a recipe type over the two-node definition on a
store with a spare active type appends exactly one RecipeType row and one
revision numbered 1 whose snapshot equals the stored definition. -/
theorem c3_create_recipe_type_atomic_witness :
    c3Store.recipe_types = demoStoreNoRev.recipe_types ++ [c3Rt] ∧
    c3Store.revisions = demoStoreNoRev.revisions ++ [c3Rev] ∧
    get_latest_revision c3Store c3Rt.id = some c3Rev ∧
    c3Rev.revision_num = 1 ∧ c3Rev.definition = c3Rt.definition := by
  obtain ⟨-, htypes, -, -, -, rev, hrevs, -, hnum, hdef, hlatest⟩ :=
    (c3_create_recipe_type_atomic demoStoreNoRev "n" "1" none "" demoDefnAB none
      (by decide)).2.2 c3Rt c3Store (by rfl)
  have h0 : ([c3Rev] : List RecipeTypeRevisionRow) = [] ++ [rev] := hrevs
  simp only [List.nil_append, List.cons.injEq, and_true] at h0
  rw [← h0] at hrevs hlatest hnum hdef
  exact ⟨htypes, hrevs, hlatest, hnum, hdef⟩

/-- C1: create_recipe fails with a fatal precondition failure whenever the
recipe type is inactive or the event is null, and every failing call — the
precondition failures and any failure from data validation onward — leaves
the store exactly as it was: the atomic transaction persists no Recipe, Job
or RecipeJob row. -/
theorem c1_create_recipe_preconditions_atomic (s : Store) (rt : RecipeTypeRow)
    (event : Option Nat) (data : RecipeInput) :
    ((rt.is_active = false ∨ event = none) →
      ∃ e, create_recipe s rt event data = (Except.error e, s) ∧
        e.isPrecondition = true) ∧
    (∀ e, (create_recipe s rt event data).1 = Except.error e →
      (create_recipe s rt event data).2 = s) := by
  constructor
  · intro h
    rcases h with hact | hev
    · refine ⟨CreateRecipeErr.inactiveRecipeType, ?_, rfl⟩
      unfold create_recipe create_recipe_inner
      rw [hact]
      simp
    · by_cases hact : rt.is_active = false
      · refine ⟨CreateRecipeErr.inactiveRecipeType, ?_, rfl⟩
        unfold create_recipe create_recipe_inner
        rw [hact]
        simp
      · refine ⟨CreateRecipeErr.eventRequired, ?_, rfl⟩
        unfold create_recipe create_recipe_inner
        rw [if_neg (fun hc => hact hc), hev]
  · intro e he
    unfold create_recipe at he ⊢
    cases hin : create_recipe_inner s rt event data with
    | mk res s2 =>
      rw [hin] at he
      cases res with
      | ok v => simp at he
      | error e2 => rfl

/-- C1 witness: an archived recipe type makes create_recipe fail with the
precondition Exception and leaves the store untouched. -/
theorem c1_create_recipe_preconditions_atomic_witness :
    create_recipe demoStore demoRtInactive (some 1) [] =
      (Except.error CreateRecipeErr.inactiveRecipeType, demoStore) ∧
    CreateRecipeErr.inactiveRecipeType.isPrecondition = true ∧
    (create_recipe demoStore demoRtInactive (some 1) []).2 = demoStore := by
  have h2 := (c1_create_recipe_preconditions_atomic demoStore demoRtInactive (some 1) []).2
    CreateRecipeErr.inactiveRecipeType (by rfl)
  exact ⟨by rfl, rfl, h2⟩

/-- C10: an active recipe type with no revision rows (unreachable through
the normal creation path) makes create_recipe bind no revision and fail
with the unclassified AttributeError raised while reading the definition —
an error outside the taxonomy of the spec and not a precondition failure —
and the aborting transaction leaves the store exactly as it was. -/
theorem c10_missing_revision_unclassified (s : Store) (rt : RecipeTypeRow)
    (data : RecipeInput) (event_id : Nat)
    (hactive : rt.is_active = true)
    (hnorev : get_latest_revision s rt.id = none) :
    create_recipe s rt (some event_id) data =
      (Except.error CreateRecipeErr.noneTypeAttributeError, s) ∧
    CreateRecipeErr.noneTypeAttributeError.inSpecTaxonomy = false ∧
    CreateRecipeErr.noneTypeAttributeError.isPrecondition = false := by
  refine ⟨?_, rfl, rfl⟩
  unfold create_recipe create_recipe_inner
  rw [hactive, hnorev]
  simp

/-- C10 witness: an active type with no revisions in the store. -/
theorem c10_missing_revision_unclassified_witness :
    create_recipe demoStoreNoRev demoRtNoRev (some 3) [] =
      (Except.error CreateRecipeErr.noneTypeAttributeError, demoStoreNoRev) ∧
    CreateRecipeErr.noneTypeAttributeError.inSpecTaxonomy = false ∧
    CreateRecipeErr.noneTypeAttributeError.isPrecondition = false :=
  c10_missing_revision_unclassified demoStoreNoRev demoRtNoRev [] 3 (by rfl) (by decide)

theorem create_job_ok_spec (s : Store) (jtype : String) (eid : Nat) (j : JobRow) (s1 : Store)
    (h : create_job s jtype eid = Except.ok (j, s1)) :
    j.job_type = jtype ∧ s1.jobs = s.jobs ++ [j] ∧ s1.recipes = s.recipes ∧
    s1.recipe_jobs = s.recipe_jobs ∧ s1.recipe_types = s.recipe_types ∧
    s1.revisions = s.revisions := by
  unfold create_job at h
  split at h
  · simp only [Except.ok.injEq, Prod.mk.injEq] at h
    obtain ⟨hj, hs⟩ := h
    subst hj
    subst hs
    exact ⟨rfl, rfl, rfl, rfl, rfl, rfl⟩
  · cases h

theorem create_recipe_jobs_ok_spec (nodes : List (String × String)) :
    ∀ s eid pairs s2,
      create_recipe_jobs s nodes eid = (Except.ok pairs, s2) →
      pairs.map Prod.fst = nodes.map Prod.fst ∧
      pairs.map (fun p => p.2.job_type) = nodes.map Prod.snd ∧
      s2.jobs = s.jobs ++ pairs.map Prod.snd ∧
      s2.recipes = s.recipes ∧ s2.recipe_jobs = s.recipe_jobs ∧
      s2.recipe_types = s.recipe_types ∧ s2.revisions = s.revisions := by
  induction nodes with
  | nil =>
    intro s eid pairs s2 h
    unfold create_recipe_jobs at h
    simp only [Prod.mk.injEq, Except.ok.injEq] at h
    obtain ⟨hp, hs⟩ := h
    subst hp
    subst hs
    simp
  | cons nd rest ih =>
    intro s eid pairs s2 h
    obtain ⟨jname, jtype⟩ := nd
    unfold create_recipe_jobs at h
    split at h
    · simp at h
    · rename_i j s1 hcj
      split at h
      · simp at h
      · rename_i tail s2y hrest
        simp only [Prod.mk.injEq, Except.ok.injEq] at h
        obtain ⟨hp, hs⟩ := h
        subst hp
        subst hs
        obtain ⟨hjt, hjobs, hrecipes, hrjs, htypes, hrevs⟩ :=
          create_job_ok_spec _ _ _ _ _ hcj
        obtain ⟨ih1, ih2, ih3, ih4, ih5, ih6, ih7⟩ := ih s1 eid tail s2y hrest
        refine ⟨?_, ?_, ?_, ?_, ?_, ?_, ?_⟩
        · simp [ih1]
        · simp [hjt, ih2]
        · rw [ih3, hjobs]
          simp [List.append_assoc]
        · rw [ih4, hrecipes]
        · rw [ih5, hrjs]
        · rw [ih6, htypes]
        · rw [ih7, hrevs]

theorem save_recipe_jobs_spec (pairs : List (String × JobRow)) :
    ∀ s recipe_id,
      (save_recipe_jobs s recipe_id pairs).recipe_jobs =
        s.recipe_jobs ++ pairs.map (fun p => recipe_job_row p.2.id p.1 recipe_id) ∧
      (save_recipe_jobs s recipe_id pairs).recipes = s.recipes ∧
      (save_recipe_jobs s recipe_id pairs).jobs = s.jobs ∧
      (save_recipe_jobs s recipe_id pairs).recipe_types = s.recipe_types ∧
      (save_recipe_jobs s recipe_id pairs).revisions = s.revisions := by
  induction pairs with
  | nil =>
    intro s rid
    simp [save_recipe_jobs]
  | cons p rest ih =>
    intro s rid
    obtain ⟨n, j⟩ := p
    unfold save_recipe_jobs
    obtain ⟨h1, h2, h3, h4, h5⟩ :=
      ih ({ s with recipe_jobs := s.recipe_jobs ++ [recipe_job_row j.id n rid] }) rid
    rw [h1, h2, h3, h4, h5]
    refine ⟨?_, rfl, rfl, rfl, rfl⟩
    simp [List.append_assoc]

/-- C6: a successful create_recipe creates, for every node of the bound
revision DAG taken in declaration order, exactly one Job through the
external job-creation contract and exactly one RecipeJob row linking that
Job to the new Recipe under the node logical name: the new job rows align
positionally with the nodes by job type, the new recipe_job rows align
positionally with the nodes by name and with the new jobs by id, and every
new recipe_job row points at the one new recipe. -/
theorem c6_one_job_and_link_per_node (s : Store) (rt : RecipeTypeRow)
    (event_id : Nat) (data : RecipeInput) (rcp : RecipeRow) (s1 : Store)
    (rev : RecipeTypeRevisionRow)
    (hrev : get_latest_revision s rt.id = some rev)
    (hok : create_recipe s rt (some event_id) data = (Except.ok rcp, s1)) :
    s1.recipes = s.recipes ++ [rcp] ∧
    s1.jobs.take s.jobs.length = s.jobs ∧
    s1.recipe_jobs.take s.recipe_jobs.length = s.recipe_jobs ∧
    (s1.jobs.drop s.jobs.length).map (fun j => j.job_type) =
      (get_job_type_map rev.definition).map Prod.snd ∧
    (s1.recipe_jobs.drop s.recipe_jobs.length).map (fun rj => rj.job_name) =
      (get_job_type_map rev.definition).map Prod.fst ∧
    (s1.recipe_jobs.drop s.recipe_jobs.length).map (fun rj => rj.job_id) =
      (s1.jobs.drop s.jobs.length).map (fun j => j.id) ∧
    (s1.recipe_jobs.drop s.recipe_jobs.length).map (fun rj => rj.recipe_id) =
      List.replicate (get_job_type_map rev.definition).length rcp.id := by
  unfold create_recipe at hok
  cases hin : create_recipe_inner s rt (some event_id) data with
  | mk res s2 =>
    rw [hin] at hok
    cases res with
    | error e => simp at hok
    | ok r =>
      simp only [Prod.mk.injEq, Except.ok.injEq] at hok
      obtain ⟨hr, hs⟩ := hok
      subst hr
      subst hs
      have hact : rt.is_active = true := by
        cases hb : rt.is_active
        · exfalso
          unfold create_recipe_inner at hin
          rw [hb] at hin
          simp at hin
        · rfl
      have hvd : validate_data rev.definition data = Except.ok () := by
        cases hv : validate_data rev.definition data with
        | ok u =>
          cases u
          rfl
        | error e =>
          exfalso
          unfold create_recipe_inner at hin
          rw [hact, hrev] at hin
          simp only [] at hin
          rw [hv] at hin
          simp at hin
      unfold create_recipe_inner at hin
      rw [hact, hrev] at hin
      simp only [] at hin
      rw [hvd] at hin
      simp only [] at hin
      cases hjobs : create_recipe_jobs
          (store_with_recipe s (recipe_row_for s rt rev event_id data))
          (get_job_type_map rev.definition) event_id with
      | mk jres s2x =>
        rw [hjobs] at hin
        cases jres with
        | error e => simp at hin
        | ok pairs =>
          simp only [Prod.mk.injEq, Except.ok.injEq] at hin
          obtain ⟨hrcp, hs1⟩ := hin
          obtain ⟨l1, l2, l3, l4, l5, l6, l7⟩ :=
            create_recipe_jobs_ok_spec _ _ _ _ _ hjobs
          obtain ⟨m1, m2, m3, m4, m5⟩ := save_recipe_jobs_spec pairs s2x
            (recipe_row_for s rt rev event_id data).id
          have hlen : pairs.length = (get_job_type_map rev.definition).length := by
            have := congrArg List.length l1
            simpa using this
          refine ⟨?_, ?_, ?_, ?_, ?_, ?_, ?_⟩
          · rw [m2, l4]
            rfl
          · rw [m3, l3]
            have : (store_with_recipe s (recipe_row_for s rt rev event_id data)).jobs =
                s.jobs := rfl
            rw [this, List.take_left]
          · rw [m1, l5]
            have : (store_with_recipe s (recipe_row_for s rt rev event_id data)).recipe_jobs =
                s.recipe_jobs := rfl
            rw [this, List.take_left]
          · rw [m3, l3]
            have : (store_with_recipe s (recipe_row_for s rt rev event_id data)).jobs =
                s.jobs := rfl
            rw [this, List.drop_left, List.map_map]
            exact l2
          · rw [m1, l5]
            have : (store_with_recipe s (recipe_row_for s rt rev event_id data)).recipe_jobs =
                s.recipe_jobs := rfl
            rw [this, List.drop_left, List.map_map]
            exact l1
          · rw [m1, l5, m3, l3]
            have h1 : (store_with_recipe s (recipe_row_for s rt rev event_id data)).recipe_jobs =
                s.recipe_jobs := rfl
            have h2 : (store_with_recipe s (recipe_row_for s rt rev event_id data)).jobs =
                s.jobs := rfl
            rw [h1, h2, List.drop_left, List.drop_left, List.map_map, List.map_map]
            rfl
          · rw [m1, l5]
            have h1 : (store_with_recipe s (recipe_row_for s rt rev event_id data)).recipe_jobs =
                s.recipe_jobs := rfl
            rw [h1, List.drop_left, List.map_map, ← hlen]
            exact List.map_const' pairs _

/-- C6 witness: the valid two-node DAG A then B yields exactly one Recipe
row, two Job rows typed jtA and jtB, and two RecipeJob rows named A and B
linking those jobs to the new recipe. -/
theorem c6_one_job_and_link_per_node_witness :
    demoStoreAfter.recipes = demoStore.recipes ++ [demoRcp] ∧
    (demoStoreAfter.jobs.drop demoStore.jobs.length).map (fun j => j.job_type) =
      (get_job_type_map demoRev.definition).map Prod.snd ∧
    (demoStoreAfter.recipe_jobs.drop demoStore.recipe_jobs.length).map
      (fun rj => rj.job_name) = (get_job_type_map demoRev.definition).map Prod.fst ∧
    demoStoreAfter.recipes.length = 1 ∧
    demoStoreAfter.jobs.length = 2 ∧
    demoStoreAfter.recipe_jobs.length = 2 ∧
    demoStoreAfter.recipe_jobs.map (fun rj => rj.job_name) = ["A", "B"] ∧
    demoStoreAfter.jobs.map (fun j => j.job_type) = ["jtA", "jtB"] := by
  obtain ⟨w1, -, -, w4, w5, -, -⟩ :=
    c6_one_job_and_link_per_node demoStore demoRt 7 [] demoRcp demoStoreAfter demoRev
      (by decide) (by rfl)
  exact ⟨w1, w4, w5, by decide, by decide, by decide, by decide, by decide⟩

/-- C8: get_locked_recipe_for_job returns a valid no-recipe result (not a
raised error) when no RecipeJob row owns the job id; otherwise — the job id
being unique among RecipeJob rows and foreign keys resolving — it returns
the unique owning Recipe with its recipe_type and recipe_type_rev relations
populated from the store, under the exclusive row lock recorded in its lock
sequence. -/
theorem c8_get_locked_recipe_for_job_spec (s : Store) (job_id : Nat)
    (hpk : (s.recipe_jobs.map (fun rj => rj.job_id)).Nodup)
    (hfk_recipe : ∀ rj ∈ s.recipe_jobs, ∃ r ∈ s.recipes, r.id = rj.recipe_id)
    (hfk_type : ∀ r ∈ s.recipes, ∃ t ∈ s.recipe_types, t.id = r.recipe_type_id)
    (hfk_rev : ∀ r ∈ s.recipes, ∃ v ∈ s.revisions, v.id = r.recipe_type_rev_id) :
    ((∀ rj ∈ s.recipe_jobs, rj.job_id ≠ job_id) →
      get_locked_recipe_for_job s job_id = Except.ok none) ∧
    (∀ rj ∈ s.recipe_jobs, rj.job_id = job_id →
      ∃ lr : LockedRecipe, get_locked_recipe_for_job s job_id = Except.ok (some lr) ∧
        lr.recipe ∈ s.recipes ∧ lr.recipe.id = rj.recipe_id ∧
        lr.recipe_type ∈ s.recipe_types ∧
        lr.recipe_type.id = lr.recipe.recipe_type_id ∧
        lr.recipe_type_rev ∈ s.revisions ∧
        lr.recipe_type_rev.id = lr.recipe.recipe_type_rev_id) ∧
    get_locked_recipe_for_job_lock_seq = [LockEntity.recipe] := by
  refine ⟨?_, ?_, rfl⟩
  · intro h
    unfold get_locked_recipe_for_job
    have hnone : s.recipe_jobs.find? (fun rj => rj.job_id = job_id) = none := by
      rw [List.find?_eq_none]
      intro rj hrj
      simp only [decide_eq_true_eq]
      exact h rj hrj
    rw [hnone]
  · intro rj hrj hid
    have hsome : (s.recipe_jobs.find? (fun x => x.job_id = job_id)).isSome :=
      List.find?_isSome.mpr ⟨rj, hrj, by simp [hid]⟩
    obtain ⟨rj0, hrj0⟩ := Option.isSome_iff_exists.mp hsome
    have hrj0mem := List.mem_of_find?_eq_some hrj0
    have hrj0id : rj0.job_id = job_id := by
      simpa using List.find?_some hrj0
    have hrjeq : rj0 = rj :=
      List.inj_on_of_nodup_map hpk hrj0mem hrj (by rw [hrj0id, hid])
    obtain ⟨r0, hr0mem, hr0id⟩ := hfk_recipe rj0 hrj0mem
    have hrfind : (s.recipes.find? (fun x => x.id = rj0.recipe_id)).isSome :=
      List.find?_isSome.mpr ⟨r0, hr0mem, by simp [hr0id]⟩
    obtain ⟨r1, hr1⟩ := Option.isSome_iff_exists.mp hrfind
    have hr1mem := List.mem_of_find?_eq_some hr1
    have hr1id : r1.id = rj0.recipe_id := by
      simpa using List.find?_some hr1
    obtain ⟨t0, ht0mem, ht0id⟩ := hfk_type r1 hr1mem
    have htfind : (s.recipe_types.find? (fun x => x.id = r1.recipe_type_id)).isSome :=
      List.find?_isSome.mpr ⟨t0, ht0mem, by simp [ht0id]⟩
    obtain ⟨t1, ht1⟩ := Option.isSome_iff_exists.mp htfind
    have ht1mem := List.mem_of_find?_eq_some ht1
    have ht1id : t1.id = r1.recipe_type_id := by
      simpa using List.find?_some ht1
    obtain ⟨v0, hv0mem, hv0id⟩ := hfk_rev r1 hr1mem
    have hvfind : (s.revisions.find? (fun x => x.id = r1.recipe_type_rev_id)).isSome :=
      List.find?_isSome.mpr ⟨v0, hv0mem, by simp [hv0id]⟩
    obtain ⟨v1, hv1⟩ := Option.isSome_iff_exists.mp hvfind
    have hv1mem := List.mem_of_find?_eq_some hv1
    have hv1id : v1.id = r1.recipe_type_rev_id := by
      simpa using List.find?_some hv1
    have hrid : r1.id = rj.recipe_id := by
      rw [hr1id, hrjeq]
    refine ⟨⟨r1, t1, v1⟩, ?_, hr1mem, hrid, ht1mem, ht1id, hv1mem, hv1id⟩
    unfold get_locked_recipe_for_job
    rw [hrj0]
    simp only []
    rw [hr1]
    simp only []
    rw [ht1]
    simp only []
    rw [hv1]

/-- C8 witness: in the store left by the demo run, job 99 is in no recipe
and job 3 resolves to the demo recipe with both relations populated. -/
theorem c8_get_locked_recipe_for_job_spec_witness :
    get_locked_recipe_for_job demoStoreAfter 99 = Except.ok none ∧
    get_locked_recipe_for_job demoStoreAfter 3 =
      Except.ok (some ⟨demoRcp, demoRt, demoRev⟩) := by
  refine ⟨(c8_get_locked_recipe_for_job_spec demoStoreAfter 99 (by decide) (by decide)
    (by decide) (by decide)).1 (by decide), by rfl⟩

/-- C9: every operation of the embedded orchestration core acquires its
exclusive row locks in a sequence whose entity types strictly follow the
mandated order JobExecution, Recipe, Job, RecipeType, JobType, TriggerRule
— so any operation holding locks on more than one entity type at once
holds them in exactly that order. Each operation in the sources acquires
locks on at most one entity type, so the discipline holds trivially
throughout. -/
theorem c9_lock_order_respected :
    ∀ l ∈ core_lock_seqs, respects_lock_order l := by
  intro l hl
  simp only [core_lock_seqs, List.mem_cons, List.not_mem_nil, or_false] at hl
  rcases hl with rfl | rfl | rfl | rfl | rfl | rfl | rfl | rfl <;>
    simp [respects_lock_order, create_recipe_lock_seq, get_locked_recipe_for_job_lock_seq,
      get_recipe_jobs_lock_seq, create_recipe_type_lock_seq,
      create_recipe_type_revision_lock_seq, create_error_lock_seq,
      get_system_error_lock_seq]

/-- C9 witness: the two operations that do take locks respect the order. -/
theorem c9_lock_order_respected_witness :
    respects_lock_order get_locked_recipe_for_job_lock_seq ∧
    respects_lock_order (get_recipe_jobs_lock_seq true) :=
  ⟨c9_lock_order_respected get_locked_recipe_for_job_lock_seq (by decide),
   c9_lock_order_respected (get_recipe_jobs_lock_seq true) (by decide)⟩

end Scale
